import Mathlib

/-!
Verification development for `src/main/python/semafor/scoring/frameparseval.py`,
the frame-semantic parsing scorer.  The Python data structures are shallowly
embedded: a `Span` is the list of stored `slice(start, stop)` ranges (the
`_s` field), Python `set`s become `Finset`s, Python dicts become association
lists built by insert-or-overwrite, Python floats (which here only ever hold
exact small rationals or NaN) become `Option ℚ` with `none` playing NaN/None,
and code that can raise becomes `Option`/`Except`-valued.
-/

/-- A stored range of a `Span`: Python `slice(start, stop)` in `Span._s`. -/
abbrev Slice := ℤ × ℤ

/-- A `Span` value is its `_s` field: the list of stored slices. -/
abbrev Span := List Slice

/-- Python `range(a, b)` materialized as a list of integers. -/
def intRange (a b : ℤ) : List ℤ := (List.range (b - a).toNat).map (fun (i : ℕ) => a + (i : ℤ))

/-- Embedding of `Span.__iter__`: chain the `range(s.start, s.stop)` of every stored slice. -/
def spanIter (s : Span) : List ℤ := s.flatMap (fun p => intRange p.1 p.2)

/-- Embedding of `set(span)`: the covered index set. -/
def spanSet (s : Span) : Finset ℤ := (spanIter s).toFinset

/-- Embedding of `Span.__len__`: `len(set(self))`. -/
def spanLen (s : Span) : ℕ := (spanSet s).card

/-- Embedding of `Span.overlaps(that)`: `bool(set(that) & set(self))`. -/
def overlaps (s t : Span) : Bool := decide ((spanSet t ∩ spanSet s).Nonempty)

/-- Embedding of `Span.overlaps_partially(that)`: `bool(set(that)-set(self) and set(self)-set(that))`. -/
def overlapsPartially (s t : Span) : Bool :=
  decide ((spanSet t \ spanSet s).Nonempty) && decide ((spanSet s \ spanSet t).Nonempty)

/-- Embedding of `Span.encompasses(that)`: `set(that) <= set(self)`. -/
def encompasses (s t : Span) : Bool := decide (spanSet t ⊆ spanSet s)

/-- Embedding of `Span.minstart`: `min(s.start for s in self._s)` (0 is junk for the empty
list, which the constructor never produces). -/
def minstart (s : Span) : ℤ :=
  match s with
  | [] => 0
  | p :: t => (t.map Prod.fst).foldl min p.1

/-- Embedding of `Span.maxstop`: `max(s.stop for s in self._s)`. -/
def maxstop (s : Span) : ℤ :=
  match s with
  | [] => 0
  | p :: t => (t.map Prod.snd).foldl max p.2

/-- Embedding of `Span.__lt__`: `self.minstart < that.minstart or self.maxstop < that.maxstop`. -/
def spanLt (a b : Span) : Bool := minstart a < minstart b || maxstop a < maxstop b

/-- Embedding of `Span.__eq__`: `self._s == that._s`. -/
def spanEq (a b : Span) : Bool := a == b

/-- Embedding of `Span.__hash__`: `sum(17*s.stop + s.start for s in self._s)`. -/
def spanHash (s : Span) : ℤ := (s.map (fun p => 17 * p.2 + p.1)).sum

/-- Embedding of `Span.__add__`: only defined between two single-range spans (`assert False`
otherwise); joins them at a shared endpoint or raises `Cannot add non-adjacent
spans` (the `NonAdjacentSpanError` of the spec). -/
def spanAdd (a b : Span) : Except String Span :=
  match a, b with
  | [sa], [sb] =>
    if sa.2 = sb.1 then .ok [(sa.1, sb.2)]
    else if sb.2 = sa.1 then .ok [(sb.1, sa.2)]
    else .error "NonAdjacentSpanError"
  | _, _ => .error "AssertionError"

/-- Embedding of `Span.subspans()`. -/
def subspans (s : Span) : List Span := s.map (fun p => [(p.1, p.2)])

/-- Pair the constructor arguments: `zip(args[::2], args[1::2])`. -/
def pairup : List ℤ → List Slice
  | a :: b :: t => (a, b) :: pairup t
  | _ => []

/-- Lexicographic comparison of `(start, stop)` pairs, as Python tuple `<=`. -/
def pairLe (a b : Slice) : Bool := a.1 < b.1 || (a.1 = b.1 && a.2 ≤ b.2)

/-- Insertion step of the stable sort standing in for Python `sorted`. -/
def insertPair (x : Slice) : List Slice → List Slice
  | [] => [x]
  | y :: t => if pairLe x y then x :: y :: t else y :: insertPair x t

/-- Embedding of `sorted(zip(args[::2], args[1::2]))`: insertion sort by lexicographic order
(the sorted result agrees with Python `sorted`; duplicates are identical pairs,
so stability is immaterial). -/
def sortPairs : List Slice → List Slice
  | [] => []
  | x :: t => insertPair x (sortPairs t)

/-- The constructor loop over the sorted pairs after the first: raise on
overlap with the span built so far, fuse a range adjacent to the last stored
slice, otherwise append.  `done ++ [last]` is the `self._s` built so far. -/
def buildRanges (done : List Slice) (last : Slice) : List Slice → Option Span
  | [] => some (done ++ [last])
  | (start, stop) :: rest =>
    if overlaps (done ++ [last]) [(start, stop)] then none
    else if last.2 = start then buildRanges done (last.1, stop) rest
    else buildRanges (done ++ [last]) (start, stop) rest

/-- Embedding of `Span.__init__(*args)`: `none` models the constructor exceptions (odd or
empty argument list, overlapping ranges). -/
def mkSpan (args : List ℤ) : Option Span :=
  if args.length = 0 ∨ args.length % 2 ≠ 0 then none
  else
    match sortPairs (pairup args) with
    | [] => none
    | p :: rest => buildRanges [] p rest

/-- Python list indexing `sequence[i]` with negative-index wraparound. -/
def pyIndex (tokens : List String) (i : ℤ) : Option String :=
  if 0 ≤ i ∧ i < (tokens.length : ℤ) then tokens.get? i.toNat
  else if -(tokens.length : ℤ) ≤ i ∧ i < 0 then tokens.get? ((tokens.length : ℤ) + i).toNat
  else none

/-- Embedding of `Span.__call__(sequence, str)`: `' '.join(sequence[i] for i in self)`;
`none` models the `IndexError` on an out-of-range index. -/
def pyMaterializeStr (tokens : List String) (sp : Span) : Option String :=
  ((spanIter sp).mapM (pyIndex tokens)).map (fun l => String.intercalate " " l)

/-- The `N` column of a `PRCounter` row: an integer count, the empty-string
placeholder used when no `N` was supplied, or the poisoned value standing for
the `TypeError` pandas raises when an integer and the placeholder meet. -/
inductive NVal
  | blank
  | num (n : ℤ)
  | err
deriving DecidableEq

/-- One row of the `PRCounter` table, in column order
`Numer, PDenom, RDenom, P, R, F, T, N, Acc`.  Float cells are `Option ℚ`
(`none` = NaN or Python `None`). -/
structure Row where
  numer : ℕ
  pdenom : ℕ
  rdenom : ℕ
  p : Option ℚ
  r : Option ℚ
  f : Option ℚ
  t : Option ℤ
  n : NVal
  acc : Option ℚ
deriving DecidableEq

/-- Embedding of `numer / denom` with NaN at a zero denominator.  This is both the explicit
`if entry['PDenom'] else float('nan')` of `__setitem__` and the pandas column
division of `__add__` (where `0/0` is NaN; a positive numerator over zero
cannot occur because `Numer <= PDenom` and `Numer <= RDenom` on every row). -/
def pRatio (numer denom : ℕ) : Option ℚ :=
  if denom = 0 then none else some ((numer : ℚ) / (denom : ℚ))

/-- The `F` recomputation of `__add__`: `2*P*R / denom[denom>0]`, which is NaN
unless `P + R` is a number greater than zero. -/
def fRatioMerge (p r : Option ℚ) : Option ℚ :=
  match p, r with
  | some pv, some rv => if 0 < pv + rv then some (2 * pv * rv / (pv + rv)) else none
  | _, _ => none

/-- The `Acc` recomputation of `__add__`: `T / N`, NaN when `T` is NaN/None,
when `N` is the empty placeholder (or poisoned), or when `N = 0`. -/
def accRatio (t : Option ℤ) (n : NVal) : Option ℚ :=
  match t, n with
  | some tv, .num k => if k = 0 then none else some ((tv : ℚ) / (k : ℚ))
  | _, _ => none

/-- The `T` computed by `__setitem__` when `N` is supplied: the match count in
the exhaustive `len(gold)==len(pred)==N` case, else `N` minus false positives
minus false negatives. -/
def tSpec {α : Type} [DecidableEq α] (n : ℤ) (gold pred : Finset α) : ℤ :=
  if (gold.card : ℤ) = n ∧ (pred.card : ℤ) = n then ((gold ∩ pred).card : ℤ)
  else n - ((pred \ gold).card : ℤ) - ((gold \ pred).card : ℤ)

/-- Embedding of `PRCounter.__setitem__`: build one row from `(N, gold_set, pred_set)`
(`N = some n`) or `(gold_set, pred_set)` (`N = none`).  `none` models the two
assertion failures (`assert N>0` when a set is nonempty, `assert T>=0`). -/
def setRowEntry {α : Type} [DecidableEq α] (N : Option ℤ) (gold pred : Finset α) :
    Option Row :=
  match N with
  | some n =>
    if (gold.Nonempty ∨ pred.Nonempty) ∧ n ≤ 0 then none
    else
      let numer : ℕ := (gold ∩ pred).card
      let pdenom : ℕ := pred.card
      let rdenom : ℕ := gold.card
      let p := pRatio numer pdenom
      let r := pRatio numer rdenom
      let f : Option ℚ :=
        match p, r with
        | some pv, some rv =>
          if pv + rv ≠ 0 then some (2 * pv * rv / (pv + rv)) else none
        | _, _ => none
      let tv : ℤ := tSpec n gold pred
      if tv < 0 then none
      else
        some { numer := numer, pdenom := pdenom, rdenom := rdenom,
               p := p, r := r, f := f, t := some tv, n := .num n,
               acc := if n = 0 then none else some ((tv : ℚ) / (n : ℚ)) }
  | none =>
    let numer : ℕ := (gold ∩ pred).card
    let pdenom : ℕ := pred.card
    let rdenom : ℕ := gold.card
    let p := pRatio numer pdenom
    let r := pRatio numer rdenom
    let f : Option ℚ :=
      match p, r with
      | some pv, some rv =>
        if pv + rv ≠ 0 then some (2 * pv * rv / (pv + rv)) else none
      | _, _ => none
    some { numer := numer, pdenom := pdenom, rdenom := rdenom,
           p := p, r := r, f := f, t := none, n := .blank, acc := none }

/-- The counter table: labelled rows in insertion order (`self._df`). -/
abbrev PRC := List (String × Row)

/-- Python dict lookup `d[k]` over an association list (first binding wins;
the insert-or-overwrite below keeps keys unique anyway). -/
def dictGet {κ ν : Type} [DecidableEq κ] (d : List (κ × ν)) (k : κ) : Option ν :=
  (d.find? (fun kv => kv.1 = k)).map (fun kv => kv.2)

/-- Look a row up by label. -/
def rowAt (c : PRC) (l : String) : Option Row := dictGet c l

/-- The row labels, in order. -/
def prcLabels (c : PRC) : List String := c.map (fun kv => kv.1)

/-- Embedding of `counter[label] = value`: append the freshly computed row. -/
def prcSet {α : Type} [DecidableEq α] (c : PRC) (label : String) (N : Option ℤ)
    (gold pred : Finset α) : Option PRC :=
  (setRowEntry N gold pred).map (fun row => c ++ [(label, row)])

/-- The fill value for the `N` column of a missing row:
`'' if me['N'][row]=='' else 0`. -/
def fillN : NVal → NVal
  | .blank => .blank
  | _ => .num 0

/-- The zero row appended by `__add__` for a label missing from one operand:
every column is filled with `0` except that an empty-placeholder `N` is filled
with the placeholder (`'' if me[e][row]=='' else 0`). -/
def fillRow (r : Row) : Row :=
  { numer := 0, pdenom := 0, rdenom := 0, p := some 0, r := some 0, f := some 0,
    t := some 0, n := fillN r.n, acc := some 0 }

/-- Addition of the `N` column: placeholder plus placeholder stays the
placeholder; an integer-placeholder mix poisons the cell (pandas `TypeError`). -/
def nAdd : NVal → NVal → NVal
  | .blank, .blank => .blank
  | .num a, .num b => .num (a + b)
  | _, _ => .err

/-- Addition of the `T` column, NaN-propagating. -/
def tAdd : Option ℤ → Option ℤ → Option ℤ
  | some a, some b => some (a + b)
  | _, _ => none

/-- One aligned row of `me + you` followed by the ratio recomputation of
`__add__`: base counts are summed, `P`, `R`, `F`, `Acc` are recomputed from
the sums. -/
def addRowRecompute (a b : Row) : Row :=
  let numer := a.numer + b.numer
  let pdenom := a.pdenom + b.pdenom
  let rdenom := a.rdenom + b.rdenom
  let t := tAdd a.t b.t
  let n := nAdd a.n b.n
  let p := pRatio numer pdenom
  let r := pRatio numer rdenom
  { numer := numer, pdenom := pdenom, rdenom := rdenom,
    p := p, r := r, f := fRatioMerge p r, t := t, n := n,
    acc := accRatio t n }

/-- The zero-filled rows `__add__` appends to the other operand: one for each
row of `y` whose label is absent from `x`. -/
def fillsFor (x y : PRC) : PRC :=
  (y.filter (fun kv => (rowAt x kv.1).isNone)).map (fun kv => (kv.1, fillRow kv.2))

/-- One entry of the aligned sum `me + you`: add the row of the other table
with the same label (after filling, every label is present in both). -/
def mergeEntry (bf : PRC) (k : String) (r : Row) : Row :=
  match rowAt bf k with
  | some r2 => addRowRecompute r r2
  | none => r

/-- Embedding of `PRCounter.__add__`: append zero-filled rows to each operand for the
labels only the other has, then add the aligned tables and recompute the
ratio columns. -/
def prcAdd (a b : PRC) : PRC :=
  let bf := b ++ fillsFor b a
  let af := a ++ fillsFor a b
  af.map (fun kv => (kv.1, mergeEntry bf kv.1 kv.2))

/-- The base counts of a row: `Numer, PDenom, RDenom, T, N` — the columns that
merge by plain summation. -/
def rowCounts (r : Row) : ℕ × ℕ × ℕ × Option ℤ × NVal :=
  (r.numer, r.pdenom, r.rdenom, r.t, r.n)

/-- The base counts of the row at a label. -/
def countsAt (c : PRC) (l : String) : Option (ℕ × ℕ × ℕ × Option ℤ × NVal) :=
  (rowAt c l).map rowCounts

/-- A row whose ratio columns agree with the recomputation from its base
counts; every row `__setitem__` produces is of this shape. -/
def RowWf (r : Row) : Prop :=
  r.p = pRatio r.numer r.pdenom ∧ r.r = pRatio r.numer r.rdenom ∧
  r.f = fRatioMerge r.p r.r ∧ r.acc = accRatio r.t r.n

instance : DecidablePred RowWf := fun r => by unfold RowWf; infer_instance

/-- Row obtained from doubling the base counts of `r` while keeping its ratio
columns: what merging a counter with itself does to each row. -/
def doubleRow (r : Row) : Row :=
  { numer := 2 * r.numer, pdenom := 2 * r.pdenom, rdenom := 2 * r.rdenom,
    p := r.p, r := r.r, f := r.f,
    t := r.t.map (fun tv => 2 * tv),
    n := match r.n with | .num k => .num (2 * k) | x => x,
    acc := r.acc }

/-- The base-count quintuple `Numer, PDenom, RDenom, T, N`. -/
abbrev Counts := ℕ × ℕ × ℕ × Option ℤ × NVal

/-- Summation of base-count quintuples. -/
def cAdd : Counts → Counts → Counts
  | (a1, a2, a3, a4, a5), (b1, b2, b3, b4, b5) =>
    (a1 + b1, a2 + b2, a3 + b3, tAdd a4 b4, nAdd a5 b5)

/-- The zero fill of a base-count quintuple. -/
def fillC : Counts → Counts
  | (_, _, _, _, a5) => (0, 0, 0, some 0, fillN a5)

/-- A concrete sized row as `set_row` would store it (counts `1,2,2`, `T=3`,
`N=5`, ratio columns computed from the counts). -/
def c2row : Row :=
  { numer := 1, pdenom := 2, rdenom := 2, p := pRatio 1 2, r := pRatio 1 2,
    f := fRatioMerge (pRatio 1 2) (pRatio 1 2), t := some 3, n := .num 5,
    acc := accRatio (some 3) (.num 5) }

/-- A concrete unsized row (`N` the empty placeholder, `T`/`Acc` unset). -/
def c2rowU : Row :=
  { numer := 0, pdenom := 1, rdenom := 2, p := pRatio 0 1, r := pRatio 0 2,
    f := fRatioMerge (pRatio 0 1) (pRatio 0 2), t := none, n := .blank,
    acc := accRatio none .blank }

/-- A one-row counter holding the sized row. -/
def c2ctrA : PRC := [("Targets by token", c2row)]

/-- A one-row counter holding the unsized row under a different label. -/
def c2ctrB : PRC := [("Targets by span", c2rowU)]

/-- Python `str.lower()` (ASCII case folding suffices for this data). -/
def pyLower (s : String) : String := String.mk (s.data.map Char.toLower)

/-- Python `str.upper()`. -/
def pyUpper (s : String) : String := String.mk (s.data.map Char.toUpper)

/-- Python slicing `s[:k]`. -/
def pyTake (s : String) (k : ℕ) : String := String.mk (s.data.take k)

/-- The seven weekday names of the `DATE_NAMES` literal, in source order. -/
def WEEKDAY_NAMES : List String :=
  ["monday", "tuesday", "wednesday", "thursday", "friday", "saturday", "sunday"]

/-- The twelve month names of the `DATE_NAMES` literal, in source order. -/
def MONTH_NAMES : List String :=
  ["january", "february", "march", "april", "may", "june", "july", "august",
   "september", "october", "november", "december"]

/-- The initial `DATE_NAMES` literal (weekdays then months). -/
def DATE_NAMES_BASE : List String := WEEKDAY_NAMES ++ MONTH_NAMES

/-- Embedding of `DATE_NAMES` after `DATE_NAMES += [v for d in DATE_NAMES for v in
[d[:3], d[:3]+'.']]`: the base names followed by every 3-letter abbreviation
with and without a trailing period. -/
def DATE_NAMES : List String :=
  DATE_NAMES_BASE ++ DATE_NAMES_BASE.flatMap (fun d => [pyTake d 3, pyTake d 3 ++ "."])

/-- One `{start, end}` span record of an annotation element (`end` is a Lean
keyword, so the field is `stop`); `text` carries the surface string used by
diagnostics. -/
structure SpanElt where
  start : ℤ
  stop : ℤ
  text : String
deriving DecidableEq

/-- A frame's `target`: its span records and optional frame `name`. -/
structure TargetElt where
  spans : List SpanElt
  name : Option String
deriving DecidableEq

/-- One frame element (argument): its span records and role `name`. -/
structure FrameElt where
  spans : List SpanElt
  name : String
deriving DecidableEq

/-- One annotation set: its `frameElements`. -/
structure AnnoSet where
  frameElements : List FrameElt
deriving DecidableEq

/-- One frame: `target` and the optional `annotationSets` key. -/
structure Frame where
  target : TargetElt
  annotationSets : Option (List AnnoSet)
deriving DecidableEq

/-- One `wsl`/`ner`/`pos` entry: `{start, end, name, text}`. -/
structure NerEntry where
  start : ℤ
  stop : ℤ
  name : String
  text : String
deriving DecidableEq

/-- A sentence record with the fields the scorer reads. -/
structure Sentence where
  tokens : List String
  frames : List Frame
  wsl : List NerEntry
  ner : List NerEntry
  pos : List NerEntry
deriving DecidableEq

/-- Python dict assignment `d[k] = v`: overwrite in place or append. -/
def dictInsert {κ ν : Type} [DecidableEq κ] (d : List (κ × ν)) (k : κ) (v : ν) :
    List (κ × ν) :=
  if (dictGet d k).isSome then d.map (fun kv => if kv.1 = k then (k, v) else kv)
  else d ++ [(k, v)]

/-- A dict comprehension / dict built by successive assignments. -/
def buildDict {κ ν : Type} [DecidableEq κ] (l : List (κ × ν)) : List (κ × ν) :=
  l.foldl (fun d kv => dictInsert d kv.1 kv.2) []

/-- The span-indexed `wsl` map of `get_non_targets`:
`Span(entry['start'], entry['end']) -> (entry['name'].lower(), entry['text'])`. -/
def wslDictOf (g : Sentence) : List (Span × String × String) :=
  buildDict (g.wsl.map (fun e => ([(e.start, e.stop)], (pyLower e.name, e.text))))

/-- The span-indexed `ner` map of `get_non_targets`. -/
def nerDictOf (g : Sentence) : List (Span × String × String) :=
  buildDict (g.ner.map (fun e => ([(e.start, e.stop)], (pyLower e.name, e.text))))

/-- The span-indexed `pos` map of `get_non_targets` (uppercased tag). -/
def posDictOf (g : Sentence) : List (Span × String) :=
  buildDict (g.pos.map (fun e => ([(e.start, e.stop)], pyUpper e.name)))

/-- The exclusion test of `get_non_targets`:
`ner_type != 'wea' and not (ner_type == 'date' and text.lower() in DATE_NAMES)`. -/
def excludedNerPred (nerType text : String) : Bool :=
  !(nerType = "wea") && !((nerType = "date") && DATE_NAMES.contains (pyLower text))

/-- Embedding of `excluded_ner_spans`: the named-entity spans whose entry passes the
exclusion test. -/
def excludedNerSpans (g : Sentence) : Finset Span :=
  (((nerDictOf g).filter (fun kv => excludedNerPred kv.2.1 kv.2.2)).map
    (fun kv => kv.1)).toFinset

/-- Embedding of `excluded_spans = set(wsl.keys()) | excluded_ner_spans`. -/
def excludedSpansOf (g : Sentence) : Finset Span :=
  ((wslDictOf g).map (fun kv => kv.1)).toFinset ∪ excludedNerSpans g

/-- Embedding of `get_non_targets(gold_sentence)`: the `wsl` map, the excluded spans and
the POS map. -/
def getNonTargets (g : Sentence) :
    List (Span × String × String) × Finset Span × List (Span × String) :=
  (wslDictOf g, excludedSpansOf g, posDictOf g)

/-- The spec's description of a qualifying date text: a weekday or month name
or a 3-letter abbreviation thereof, with or without a trailing period,
compared case-insensitively. -/
def matchesDateName (text : String) : Prop :=
  ∃ d ∈ WEEKDAY_NAMES ++ MONTH_NAMES,
    pyLower text = d ∨ pyLower text = pyTake d 3 ∨ pyLower text = pyTake d 3 ++ "."

/-- The gold sentence of the C5 instance: two date entities, one whose text
is a weekday name and one whose text is a year. -/
def c5sentence : Sentence :=
  { tokens := ["monday", "2024"], frames := [], wsl := [],
    ner := [{ start := 0, stop := 1, name := "date", text := "monday" },
            { start := 1, stop := 2, name := "DATE", text := "2024" }],
    pos := [] }

/-- Embedding of `span_from_element`: one `Span` from all `{start, end}` pairs of an
element's `spans` list. -/
def spanFromElement (spans : List SpanElt) : Option Span :=
  mkSpan (spans.flatMap (fun sp => [sp.start, sp.stop]))

/-- The three results of `get_predictions_by_span`: covered tokens, frame
name by target span, argument map by target span. -/
structure PredMaps where
  coverage : Finset ℤ
  frameNames : List (Span × Option String)
  arguments : List (Span × List (Span × String))
deriving DecidableEq

/-- The argument dict comprehension
`{span_from_element(fe): fe['name'] for fe in annotationSets[0]['frameElements']}`. -/
def buildArgDict (fes : List FrameElt) : Option (List (Span × String)) :=
  fes.foldlM (fun d fe =>
    match spanFromElement fe.spans with
    | none => none
    | some sp => some (dictInsert d sp fe.name)) []

/-- One iteration of the `get_predictions_by_span` loop. -/
def predStep (st : PredMaps) (frame : Frame) : Option PredMaps :=
  match spanFromElement frame.target.spans with
  | none => none
  | some tspan =>
    match (match frame.annotationSets with
           | some sets =>
             match sets.head? with
             | some first => buildArgDict first.frameElements
             | none => none
           | none => some []) with
    | none => none
    | some args =>
      some { coverage := st.coverage ∪ spanSet tspan,
             frameNames := dictInsert st.frameNames tspan frame.target.name,
             arguments := dictInsert st.arguments tspan args }

/-- Embedding of `get_predictions_by_span(frames)`. -/
def getPredictionsBySpan (frames : List Frame) : Option PredMaps :=
  frames.foldlM predStep { coverage := ∅, frameNames := [], arguments := [] }

/-- The mutable state of the gold-frame loop of `score_sentence`. -/
structure GoldState where
  gts : Finset Span
  gftc : Finset ℤ
  gframes : List (Span × String)
  gargs : List (Span × List (Span × String))
  excl : Finset Span
deriving DecidableEq

/-- The overlap diagnostics of the gold loop materialize both spans over the
token list; `none` models the `IndexError` when any needed index is out of
range (set iteration order cannot change whether some materialization
fails). -/
def overlapDiagsOk (tokens : List String) (tspan : Span) (excl : Finset Span) :
    Option Unit :=
  if ∀ sp ∈ excl, overlaps tspan sp = true →
      ((pyMaterializeStr tokens tspan).isSome ∧ (pyMaterializeStr tokens sp).isSome)
  then some () else none

/-- One iteration of the gold-frame loop: record target span, coverage, frame
name and argument map, then handle the excluded-span diagnostics (removing a
multiword-expression span from the exclusions, printing otherwise).  The
non-WSL diagnostic only reads `target['spans'][0]['text']` and the `ner`
entries, which cannot fail here because `span_from_element` succeeded. -/
def goldWalkStep (tokens : List String) (wslKeys : Finset Span) (st : GoldState)
    (frame : Frame) : Option GoldState :=
  match spanFromElement frame.target.spans with
  | none => none
  | some tspan =>
  match frame.target.name with
  | none => none
  | some name =>
  match frame.annotationSets with
  | none => none
  | some sets =>
  match sets.head? with
  | none => none
  | some first =>
  match buildArgDict first.frameElements with
  | none => none
  | some args =>
    let st1 : GoldState :=
      { gts := insert tspan st.gts, gftc := st.gftc ∪ spanSet tspan,
        gframes := dictInsert st.gframes tspan name,
        gargs := dictInsert st.gargs tspan args, excl := st.excl }
    if tspan ∈ st.excl then
      if tspan ∈ wslKeys then
        match pyMaterializeStr tokens tspan with
        | none => none
        | some _ => some { st1 with excl := st.excl.erase tspan }
      else some st1
    else if 1 < spanLen tspan then
      match overlapDiagsOk tokens tspan st.excl with
      | none => none
      | some _ => some st1
    else some st1

/-- The whole gold-frame loop, starting from the `get_non_targets`
exclusions. -/
def goldWalk (g : Sentence) : Option GoldState :=
  g.frames.foldlM
    (goldWalkStep g.tokens (((getNonTargets g).1.map (fun kv => kv.1)).toFinset))
    { gts := ∅, gftc := ∅, gframes := [], gargs := [], excl := (getNonTargets g).2.1 }

/-- Embedding of `gold_target_coverage` after the exclusion subtraction: the token range
minus every excluded span's indices (sequential set differences equal
filtering out the union, independently of iteration order). -/
def gtcOf (gold : Sentence) (excl : Finset Span) : Finset ℤ :=
  (((List.range gold.tokens.length).map (fun (i : ℕ) => (i : ℤ))).toFinset).filter
    (fun tk => ¬ ∃ sp ∈ excl, tk ∈ spanSet sp)

/-- Embedding of `gold_target_spans` after adding a singleton span for every in-principle
target token not covered by a gold frame target. -/
def gtsOf (gold : Sentence) (st : GoldState) : Finset Span :=
  st.gts ∪ (gtcOf gold st.excl \ st.gftc).image (fun tk => [(tk, tk + 1)])

/-- Embedding of `set(pred_frames.keys())`. -/
def pfrKeysOf (pm : PredMaps) : Finset Span :=
  (pm.frameNames.map (fun kv => kv.1)).toFinset

/-- Embedding of `correct_target_spans = set(gold_frames.keys()) & set(pred_frames.keys())`. -/
def ctsOf (pm : PredMaps) (st : GoldState) : Finset Span :=
  (st.gframes.map (fun kv => kv.1)).toFinset ∩ pfrKeysOf pm

/-- Python truthiness of an optional frame name (`None` and `''` are falsy). -/
def optStrTruthy : Option String → Bool
  | none => false
  | some s => !(s = "")

/-- The missed/extra error-inventory loops; their only failure mode is the
token materialization of a missed or extra span. -/
def errorLoopsOk (tokens : List String) (gts pfrKeys : Finset Span) : Option Unit :=
  if (∀ sp ∈ gts \ pfrKeys, (pyMaterializeStr tokens sp).isSome)
      ∧ (∀ sp ∈ pfrKeys \ gts, (pyMaterializeStr tokens sp).isSome)
  then some () else none

/-- Embedding of `assert len(gold_frames)==len(pred_frames)==len(correct_target_spans)`
after the restriction to the correct target spans. -/
def frameSizeAssert (gfR : List (Span × String)) (pfR : List (Span × Option String))
    (cts : Finset Span) : Bool :=
  decide (gfR.length = pfR.length ∧ pfR.length = cts.card)

/-- The target stage: the rows `Targets by token` and `Targets by span`,
then the error-inventory loops. -/
def targetRows (gold : Sentence) (pm : PredMaps) (st : GoldState) : Option PRC :=
  match prcSet [] "Targets by token" (some (gold.tokens.length : ℤ))
    (gtcOf gold st.excl) pm.coverage with
  | none => none
  | some c1 =>
  match prcSet c1 "Targets by span" none (gtsOf gold st) (pfrKeysOf pm) with
  | none => none
  | some c2 =>
  match errorLoopsOk gold.tokens (gtsOf gold st) (pfrKeysOf pm) with
  | none => none
  | some _ => some c2

/-- The frame stage: the two frame rows with the restriction and the size
assertion between them. -/
def frameRows (pm : PredMaps) (st : GoldState) (c2 : PRC) : Option PRC :=
  match prcSet c2 "Frames with correct targets (ignore P)" none
    ((st.gframes.map (fun kv => (kv.1, some kv.2))).toFinset :
      Finset (Span × Option String))
    pm.frameNames.toFinset with
  | none => none
  | some c3 =>
    if frameSizeAssert (st.gframes.filter (fun kv => kv.1 ∈ ctsOf pm st))
        (pm.frameNames.filter (fun kv => kv.1 ∈ ctsOf pm st)) (ctsOf pm st) then
      prcSet c3 "Frames (correct targets only)" (some ((ctsOf pm st).card : ℤ))
        (((st.gframes.filter (fun kv => kv.1 ∈ ctsOf pm st)).map
          (fun kv => (kv.1, some kv.2))).toFinset)
        (pm.frameNames.filter (fun kv => kv.1 ∈ ctsOf pm st)).toFinset
    else none

/-- Embedding of `set((tspan, arg) for tspan, args in d.items() for arg in args)`. -/
def argPairs (d : List (Span × List (Span × String))) : Finset (Span × Span) :=
  (d.flatMap (fun kv => kv.2.map (fun akv => (kv.1, akv.1)))).toFinset

/-- Embedding of `set((tspan,) + arg for tspan, args in d.items() for arg in args.items())`. -/
def argTriples (d : List (Span × List (Span × String))) :
    Finset (Span × Span × String) :=
  (d.flatMap (fun kv => kv.2.map (fun akv => (kv.1, akv.1, akv.2)))).toFinset

/-- The argument stage: two unrestricted rows, then the restriction to the
correct target spans and two restricted rows. -/
def argRows (pm : PredMaps) (st : GoldState) (cts : Finset Span) (c4 : PRC) :
    Option PRC :=
  match prcSet c4 "Argument spans with correct targets" none
    (argPairs st.gargs) (argPairs pm.arguments) with
  | none => none
  | some c5 =>
  match prcSet c5 "Arguments, labeled, with correct targets" none
    (argTriples st.gargs) (argTriples pm.arguments) with
  | none => none
  | some c6 =>
  match prcSet c6 "Argument spans (correct targets only)" none
    (argPairs (st.gargs.filter (fun kv => kv.1 ∈ cts)))
    (argPairs (pm.arguments.filter (fun kv => kv.1 ∈ cts))) with
  | none => none
  | some c7 =>
    prcSet c7 "Arguments, labeled (correct targets only)" none
      (argTriples (st.gargs.filter (fun kv => kv.1 ∈ cts)))
      (argTriples (pm.arguments.filter (fun kv => kv.1 ∈ cts)))

/-- Embedding of `score_sentence(gold, predicted)`: the staged computation of the
sentence-level counter (diagnostic output is dropped; its only effect on the
result, a possible `IndexError` while materializing a span, is kept). -/
def scoreSentence (gold pred : Sentence) : Option PRC :=
  match getPredictionsBySpan pred.frames with
  | none => none
  | some pm =>
  match goldWalk gold with
  | none => none
  | some st =>
  match targetRows gold pm st with
  | none => none
  | some c2 =>
    if pm.frameNames.any (fun kv => optStrTruthy kv.2) then
      match frameRows pm st c2 with
      | none => none
      | some c4 =>
        if pm.arguments.any (fun kv => !kv.2.isEmpty) then
          argRows pm st (ctsOf pm st) c4
        else some c4
    else some c2

/-- Embedding of `any(pred_frames.values())` is false: no predicted frame carries a
(truthy) frame name. -/
def predNoFrameNames (pred : Sentence) : Bool :=
  match getPredictionsBySpan pred.frames with
  | some pm => pm.frameNames.all (fun kv => kv.2 = none)
  | none => true

/-- Embedding of `any(pred_frames.values())` is true: some frame name was predicted. -/
def predSomeFrameNames (pred : Sentence) : Bool :=
  match getPredictionsBySpan pred.frames with
  | some pm => pm.frameNames.any (fun kv => optStrTruthy kv.2)
  | none => false

/-- Embedding of `any(pred_args.values())` is false: no arguments were predicted. -/
def predNoArgs (pred : Sentence) : Bool :=
  match getPredictionsBySpan pred.frames with
  | some pm => pm.arguments.all (fun kv => kv.2.isEmpty)
  | none => true

/-- The C9 check: whenever the maps that reach the frame stage exist, both
restricted maps have exactly as many entries as the key intersection and the
size assertion passes. -/
def c9check (gold pred : Sentence) : Option Bool :=
  match getPredictionsBySpan pred.frames with
  | none => none
  | some pm =>
  match goldWalk gold with
  | none => none
  | some st =>
    some (decide
      ((st.gframes.filter (fun kv => kv.1 ∈ ctsOf pm st)).length = (ctsOf pm st).card
        ∧ (pm.frameNames.filter (fun kv => kv.1 ∈ ctsOf pm st)).length
            = (ctsOf pm st).card
        ∧ frameSizeAssert (st.gframes.filter (fun kv => kv.1 ∈ ctsOf pm st))
            (pm.frameNames.filter (fun kv => kv.1 ∈ ctsOf pm st))
            (ctsOf pm st) = true))

/-- A one-token sentence with no annotations at all (C6, target-only case). -/
def c6goldA : Sentence := { tokens := ["a"], frames := [], wsl := [], ner := [], pos := [] }

/-- A one-token gold sentence with one named frame and an empty argument set. -/
def c6goldB : Sentence :=
  { tokens := ["a"],
    frames := [{ target := { spans := [{ start := 0, stop := 1, text := "a" }],
                             name := some "F" },
                 annotationSets := some [{ frameElements := [] }] }],
    wsl := [], ner := [], pos := [] }

/-- The same prediction with a frame name but no `annotationSets` key. -/
def c6predB : Sentence :=
  { tokens := ["a"],
    frames := [{ target := { spans := [{ start := 0, stop := 1, text := "a" }],
                             name := some "F" },
                 annotationSets := none }],
    wsl := [], ner := [], pos := [] }

-- Sanity examples for the Span embedding (doctests of the source class).
example : mkSpan [3, 6] = some [(3, 6)] := by decide

example : spanIter [(3, 6)] = [3, 4, 5] := by decide

example : mkSpan [3, 6, 9, 12] = some [(3, 6), (9, 12)] := by decide

example : spanIter [(3, 6), (9, 12)] = [3, 4, 5, 9, 10, 11] := by decide

example : mkSpan [9, 12, 3, 6] = some [(3, 6), (9, 12)] := by decide

example : mkSpan [0, 2, 2, 4] = some [(0, 4)] := by decide

example : mkSpan [0, 3, 2, 5] = none := by decide

example : mkSpan [3] = none := by decide

example : mkSpan [] = none := by decide

example : encompasses [(3, 6)] [(3, 4)] = true := by decide

example : subspans [(3, 6), (9, 12)] = [[(3, 6)], [(9, 12)]] := by decide

example : spanAdd [(3, 6)] [(0, 3)] = .ok [(0, 6)] := rfl

example : pyMaterializeStr ["a", "b", "c"] [(1, 3)] = some "b c" := by decide

example : pyMaterializeStr ["a", "b"] [(1, 3)] = none := by decide

-- Sanity example: the spec's `set_row` instance with gold = pred of size 3.
example : (setRowEntry (some 3) ({0, 1, 2} : Finset ℤ) {0, 1, 2}).map (fun r => r.t)
    = some (some 3) := by decide

example : (setRowEntry (some 5) ({0, 1} : Finset ℤ) {1, 2}).map (fun r => r.t)
    = some (some 3) := by decide

example : setRowEntry (some 1) ({1, 2} : Finset ℤ) {3, 4} = none := by decide

example : setRowEntry (some 0) ({1} : Finset ℤ) {1} = none := by decide

/-- The indices of `range(a, b)` are exactly the integer interval `[a, b)`. -/
theorem intRange_toFinset (a b : ℤ) : (intRange a b).toFinset = Finset.Ico a b := by
  ext x
  constructor
  · intro hx
    rw [List.mem_toFinset, intRange] at hx
    obtain ⟨i, hi, rfl⟩ := List.mem_map.mp hx
    rw [List.mem_range] at hi
    rw [Finset.mem_Ico]
    omega
  · intro hx
    rw [Finset.mem_Ico] at hx
    rw [List.mem_toFinset, intRange]
    exact List.mem_map.mpr ⟨(x - a).toNat, List.mem_range.mpr (by omega), by omega⟩

/-- The covered set of a single stored range is the integer interval. -/
theorem spanSet_single (a b : ℤ) : spanSet [(a, b)] = Finset.Ico a b := by
  simp [spanSet, spanIter, intRange_toFinset]

/-- C3 (amended): `overlaps_partially(other)` returns true exactly when
neither index set contains the other (each side has an index the other
lacks); intersection of the two index sets is NOT required.  The two
concrete examples of the claim hold as stated. -/
theorem c3_amended :
    (∀ s t : Span, overlapsPartially s t = true ↔
      ¬ spanSet t ⊆ spanSet s ∧ ¬ spanSet s ⊆ spanSet t) ∧
    mkSpan [3, 6] = some [(3, 6)] ∧ mkSpan [5, 8] = some [(5, 8)] ∧
    overlapsPartially [(3, 6)] [(5, 8)] = true ∧
    overlapsPartially [(3, 6)] [(3, 6)] = false := by
  refine ⟨fun s t => ?_, by decide, by decide, by decide, by decide⟩
  simp [overlapsPartially, Finset.sdiff_nonempty]

/-- C3 counterexample: the claim says `overlaps_partially` is true exactly
when the index sets intersect and neither contains the other, but for the
disjoint constructible spans `Span(0,1)` and `Span(5,6)` the code returns
true while the index sets do not intersect. -/
theorem c3_counterexample :
    mkSpan [0, 1] = some [(0, 1)] ∧ mkSpan [5, 6] = some [(5, 6)] ∧
    overlapsPartially [(0, 1)] [(5, 6)] = true ∧
    spanSet [(0, 1)] ∩ spanSet [(5, 6)] = ∅ := by decide

/-- C4 (amended): span addition is defined only between two single-range
spans; it joins the two ranges at a shared endpoint (first checking
`self.stop == that.start`, then the reverse) and otherwise fails with
`NonAdjacentSpanError`; whenever each operand range has `start ≤ stop` the
result covers exactly the union of the two index sets.  The claim's concrete
examples hold: `Span(3,6) + Span(6,9) == Span(3,9)` and
`Span(3,6) + Span(7,9)` fails with `NonAdjacentSpanError`. -/
theorem c4_amended :
    (∀ s1 e1 s2 e2 : ℤ, s1 ≤ e1 → s2 ≤ e2 →
      (e1 = s2 → spanAdd [(s1, e1)] [(s2, e2)] = .ok [(s1, e2)] ∧
        spanSet [(s1, e2)] = spanSet [(s1, e1)] ∪ spanSet [(s2, e2)]) ∧
      (e2 = s1 → spanAdd [(s1, e1)] [(s2, e2)] = .ok [(s2, e1)] ∧
        spanSet [(s2, e1)] = spanSet [(s1, e1)] ∪ spanSet [(s2, e2)]) ∧
      (e1 ≠ s2 → e2 ≠ s1 →
        spanAdd [(s1, e1)] [(s2, e2)] = .error "NonAdjacentSpanError")) ∧
    (∀ a b : Span, ¬ (a.length = 1 ∧ b.length = 1) →
      spanAdd a b = .error "AssertionError") ∧
    spanAdd [(3, 6)] [(6, 9)] = .ok [(3, 9)] ∧
    mkSpan [3, 6] = some [(3, 6)] ∧ mkSpan [6, 9] = some [(6, 9)] ∧
    mkSpan [3, 9] = some [(3, 9)] ∧ mkSpan [7, 9] = some [(7, 9)] ∧
    spanAdd [(3, 6)] [(7, 9)] = .error "NonAdjacentSpanError" := by
  refine ⟨?_, ?_, rfl, by decide, by decide, by decide, by decide, rfl⟩
  · intro s1 e1 s2 e2 h1 h2
    refine ⟨fun hadj => ?_, fun hadj => ?_, fun hne1 hne2 => ?_⟩
    · subst hadj
      refine ⟨by simp [spanAdd], ?_⟩
      rw [spanSet_single, spanSet_single, spanSet_single,
        Finset.Ico_union_Ico_eq_Ico h1 h2]
    · have hs : s2 ≤ s1 := hadj ▸ h2
      constructor
      · simp only [spanAdd]
        by_cases hboth : e1 = s2
        · have he : s1 = s2 ∧ e2 = e1 := by omega
          rw [if_pos hboth, he.1, he.2]
        · rw [if_neg hboth, if_pos hadj]
      · rw [spanSet_single, spanSet_single, spanSet_single, Finset.union_comm, hadj,
          Finset.Ico_union_Ico_eq_Ico hs h1]
    · simp [spanAdd, hne1, hne2]
  · intro a b hab
    match a, b with
    | [], _ => rfl
    | _ :: _ :: _, _ => rfl
    | [x], [] => rfl
    | [x], _ :: _ :: _ => rfl
    | [x], [y] => exact absurd ⟨rfl, rfl⟩ hab

/-- C4 witness: the general adjacency case of `c4_amended` instantiated at
`Span(3,6) + Span(6,9)`, with every hypothesis discharged concretely. -/
theorem c4_witness :
    spanAdd [(3, 6)] [(6, 9)] = .ok [(3, 9)] ∧
    spanSet [(3, 9)] = spanSet [(3, 6)] ∪ spanSet [(6, 9)] :=
  (c4_amended.1 3 6 6 9 (by decide) (by decide)).1 rfl

/-- C4 counterexample: the claim's "covering the union" fails for the
constructible degenerate span `Span(6,3)`: adding it to `Span(3,8)` splices
at the shared endpoint 3 and yields `Span(6,8)`, which misses index 3 of the
union of the two covered index sets. -/
theorem c4_counterexample :
    mkSpan [6, 3] = some [(6, 3)] ∧ mkSpan [3, 8] = some [(3, 8)] ∧
    spanAdd [(6, 3)] [(3, 8)] = .ok [(6, 8)] ∧
    (3 : ℤ) ∈ spanSet [(6, 3)] ∪ spanSet [(3, 8)] ∧
    (3 : ℤ) ∉ spanSet [(6, 8)] :=
  ⟨by decide, by decide, rfl, by decide, by decide⟩

/-- C7: span equality is list equality of the stored ranges (and the hash is
a function of the stored ranges), not of the covered index set: the
constructible spans `Span(2,4,7,7)` and `Span(2,4)` cover the same indices
yet compare unequal and hash differently. -/
theorem c7_eq_by_ranges :
    (∀ a b : Span, spanEq a b = true ↔ a = b) ∧
    mkSpan [2, 4, 7, 7] = some [(2, 4), (7, 7)] ∧ mkSpan [2, 4] = some [(2, 4)] ∧
    spanSet [(2, 4), (7, 7)] = spanSet [(2, 4)] ∧
    spanEq [(2, 4), (7, 7)] [(2, 4)] = false ∧
    spanHash [(2, 4), (7, 7)] ≠ spanHash [(2, 4)] := by
  refine ⟨fun a b => ?_, by decide, by decide, by decide, by decide, by decide⟩
  simp [spanEq]

/-- C8 (amended): `a < b` holds whenever `a.minstart < b.minstart`, and, on
equal `minstart`, whenever `a.maxstop < b.maxstop`; but the comparison is the
plain disjunction `minstart a < minstart b or maxstop a < maxstop b`, so
`a.minstart < b.minstart` does not preclude `b < a` (both can hold at once
when the stops are ordered the other way). -/
theorem c8_amended :
    (∀ a b : Span, minstart a < minstart b → spanLt a b = true) ∧
    (∀ a b : Span, minstart a = minstart b → maxstop a < maxstop b →
      spanLt a b = true) ∧
    (∀ a b : Span, spanLt a b = true ↔
      (minstart a < minstart b ∨ maxstop a < maxstop b)) := by
  refine ⟨fun a b h => ?_, fun a b h1 h2 => ?_, fun a b => ?_⟩
  · simp [spanLt, h]
  · simp [spanLt, h2]
  · simp [spanLt]

/-- C8 witness: both sufficient conditions of `c8_amended` instantiated at
concrete spans. -/
theorem c8_witness :
    spanLt [(3, 6)] [(5, 8)] = true ∧ spanLt [(3, 6)] [(3, 8)] = true :=
  ⟨c8_amended.1 _ _ (by decide), c8_amended.2.1 _ _ (by decide) (by decide)⟩

/-- C8 counterexample: the claim asserts that `a.minstart < b.minstart`
precludes `b < a`, but for `a = Span(0,10)`, `b = Span(5,6)` we have
`a.minstart < b.minstart` and nevertheless `b < a` (because
`b.maxstop < a.maxstop`). -/
theorem c8_counterexample :
    mkSpan [0, 10] = some [(0, 10)] ∧ mkSpan [5, 6] = some [(5, 6)] ∧
    minstart [(0, 10)] < minstart [(5, 6)] ∧
    spanLt [(5, 6)] [(0, 10)] = true := by decide

/-- C10: the constructor performs no `start < stop` validation: `Span(k,k)`
is built for every integer `k`, as is the reversed `Span(6,3)`; a degenerate
range contributes nothing to iteration, membership or length, yet stays in
the stored range list and therefore changes equality and the hash. -/
theorem c10_no_validation :
    (∀ k : ℤ, mkSpan [k, k] = some [(k, k)] ∧ spanIter [(k, k)] = [] ∧
      spanLen [(k, k)] = 0) ∧
    mkSpan [6, 3] = some [(6, 3)] ∧ spanIter [(6, 3)] = [] ∧
    mkSpan [1, 3, 5, 5] = some [(1, 3), (5, 5)] ∧
    spanIter [(1, 3), (5, 5)] = [1, 2] ∧ spanLen [(1, 3), (5, 5)] = 2 ∧
    (5 : ℤ) ∉ spanSet [(1, 3), (5, 5)] ∧
    spanSet [(1, 3), (5, 5)] = spanSet [(1, 3)] ∧
    ([(1, 3), (5, 5)] : Span) ≠ [(1, 3)] ∧
    spanHash [(1, 3), (5, 5)] ≠ spanHash [(1, 3)] := by
  refine ⟨fun k => ⟨?_, ?_, ?_⟩, by decide, by decide, by decide, by decide,
    by decide, by decide, by decide, by decide, by decide⟩
  · simp [mkSpan, pairup, sortPairs, insertPair, buildRanges]
  · simp [spanIter, intRange]
  · simp [spanLen, spanSet, spanIter, intRange]

/-- C1: `set_row` records `Numer = |gold ∩ pred|`, `PDenom = |pred|`,
`RDenom = |gold|`, `P = Numer/PDenom` (NaN when `PDenom = 0`),
`R = Numer/RDenom` (NaN when `RDenom = 0`), `F = 2PR/(P+R)` (NaN when
`P + R = 0` or either ratio is NaN); with `N` supplied, `T = Numer` when
`|gold| = |pred| = N` and otherwise `N - |pred−gold| - |gold−pred|`,
`Acc = T/N` (NaN at `N = 0`), and the operation fails when that `T` is
negative (the other failure is the code's `assert N>0` guard); in particular
`N=5`, `|gold|=2`, `|pred|=2`, intersection 1 gives `Numer=1`, `T=3`,
`Acc=3/5`, and a `T<0` configuration fails. -/
theorem c1_setrow :
    (∀ (α : Type) [DecidableEq α] (n : ℤ) (gold pred : Finset α),
      setRowEntry (some n) gold pred =
        if (gold.Nonempty ∨ pred.Nonempty) ∧ n ≤ 0 then none
        else if tSpec n gold pred < 0 then none
        else some
          { numer := (gold ∩ pred).card, pdenom := pred.card, rdenom := gold.card,
            p := if pred.card = 0 then none
              else some (((gold ∩ pred).card : ℚ) / (pred.card : ℚ)),
            r := if gold.card = 0 then none
              else some (((gold ∩ pred).card : ℚ) / (gold.card : ℚ)),
            f := if pred.card = 0 ∨ gold.card = 0 then none
              else if ((gold ∩ pred).card : ℚ) / (pred.card : ℚ) +
                  ((gold ∩ pred).card : ℚ) / (gold.card : ℚ) = 0 then none
              else some (2 * (((gold ∩ pred).card : ℚ) / (pred.card : ℚ)) *
                  (((gold ∩ pred).card : ℚ) / (gold.card : ℚ)) /
                  (((gold ∩ pred).card : ℚ) / (pred.card : ℚ) +
                    ((gold ∩ pred).card : ℚ) / (gold.card : ℚ))),
            t := some (tSpec n gold pred), n := .num n,
            acc := if n = 0 then none
              else some ((tSpec n gold pred : ℚ) / (n : ℚ)) }) ∧
    (∀ (α : Type) [DecidableEq α] (gold pred : Finset α),
      setRowEntry (none : Option ℤ) gold pred =
        some
          { numer := (gold ∩ pred).card, pdenom := pred.card, rdenom := gold.card,
            p := if pred.card = 0 then none
              else some (((gold ∩ pred).card : ℚ) / (pred.card : ℚ)),
            r := if gold.card = 0 then none
              else some (((gold ∩ pred).card : ℚ) / (gold.card : ℚ)),
            f := if pred.card = 0 ∨ gold.card = 0 then none
              else if ((gold ∩ pred).card : ℚ) / (pred.card : ℚ) +
                  ((gold ∩ pred).card : ℚ) / (gold.card : ℚ) = 0 then none
              else some (2 * (((gold ∩ pred).card : ℚ) / (pred.card : ℚ)) *
                  (((gold ∩ pred).card : ℚ) / (gold.card : ℚ)) /
                  (((gold ∩ pred).card : ℚ) / (pred.card : ℚ) +
                    ((gold ∩ pred).card : ℚ) / (gold.card : ℚ))),
            t := none, n := .blank, acc := none }) ∧
    tSpec 5 ({0, 1} : Finset ℤ) {1, 2} = 3 ∧
    setRowEntry (some 5) ({0, 1} : Finset ℤ) {1, 2} =
      some { numer := 1, pdenom := 2, rdenom := 2, p := some (1 / 2),
             r := some (1 / 2), f := some (1 / 2), t := some 3, n := .num 5,
             acc := some (3 / 5) } ∧
    tSpec 1 ({1, 2} : Finset ℤ) {3, 4} = -3 ∧
    setRowEntry (some 1) ({1, 2} : Finset ℤ) {3, 4} = none := by
  have hsized : ∀ (α : Type) [DecidableEq α] (n : ℤ) (gold pred : Finset α),
      setRowEntry (some n) gold pred =
        if (gold.Nonempty ∨ pred.Nonempty) ∧ n ≤ 0 then none
        else if tSpec n gold pred < 0 then none
        else some
          { numer := (gold ∩ pred).card, pdenom := pred.card, rdenom := gold.card,
            p := if pred.card = 0 then none
              else some (((gold ∩ pred).card : ℚ) / (pred.card : ℚ)),
            r := if gold.card = 0 then none
              else some (((gold ∩ pred).card : ℚ) / (gold.card : ℚ)),
            f := if pred.card = 0 ∨ gold.card = 0 then none
              else if ((gold ∩ pred).card : ℚ) / (pred.card : ℚ) +
                  ((gold ∩ pred).card : ℚ) / (gold.card : ℚ) = 0 then none
              else some (2 * (((gold ∩ pred).card : ℚ) / (pred.card : ℚ)) *
                  (((gold ∩ pred).card : ℚ) / (gold.card : ℚ)) /
                  (((gold ∩ pred).card : ℚ) / (pred.card : ℚ) +
                    ((gold ∩ pred).card : ℚ) / (gold.card : ℚ))),
            t := some (tSpec n gold pred), n := .num n,
            acc := if n = 0 then none
              else some ((tSpec n gold pred : ℚ) / (n : ℚ)) } := by
    intro α _ n gold pred
    by_cases h1 : (gold.Nonempty ∨ pred.Nonempty) ∧ n ≤ 0
    · simp [setRowEntry, h1]
    · by_cases h2 : tSpec n gold pred < 0
      · simp [setRowEntry, h1, h2]
      · by_cases hp : pred.card = 0 <;> by_cases hg : gold.card = 0 <;>
          simp [setRowEntry, pRatio, h1, h2, hp, hg, ite_not]
  refine ⟨hsized, ?_, by decide, ?_, by decide, by decide⟩
  · intro α _ gold pred
    by_cases hp : pred.card = 0 <;> by_cases hg : gold.card = 0 <;>
      simp [setRowEntry, pRatio, hp, hg, ite_not]
  · rw [hsized ℤ 5 ({0, 1} : Finset ℤ) {1, 2}]
    rw [show tSpec 5 ({0, 1} : Finset ℤ) {1, 2} = 3 from by decide,
      show (({0, 1} : Finset ℤ) ∩ {1, 2}).card = 1 from by decide,
      show ({1, 2} : Finset ℤ).card = 2 from by decide,
      show ({0, 1} : Finset ℤ).card = 2 from by decide]
    norm_num

/-- Lookup in a cons cell. -/
theorem dictGet_cons {κ ν : Type} [DecidableEq κ] (kv : κ × ν) (d : List (κ × ν))
    (k : κ) : dictGet (kv :: d) k = if kv.1 = k then some kv.2 else dictGet d k := by
  by_cases h : kv.1 = k <;> simp [dictGet, List.find?, h]

/-- Lookup distributes over append, first list first. -/
theorem dictGet_append {κ ν : Type} [DecidableEq κ] (x y : List (κ × ν)) (k : κ) :
    dictGet (x ++ y) k = if (dictGet x k).isSome then dictGet x k else dictGet y k := by
  induction x with
  | nil => simp [dictGet]
  | cons kv t ih =>
    by_cases h : kv.1 = k <;> simp [dictGet_cons, h, ih]

/-- Lookup after filtering on keys. -/
theorem dictGet_filterKey {κ ν : Type} [DecidableEq κ] (q : κ → Bool)
    (d : List (κ × ν)) (k : κ) :
    dictGet (d.filter (fun kv => q kv.1)) k = if q k then dictGet d k else none := by
  induction d with
  | nil => simp [dictGet]
  | cons kv t ih =>
    rw [List.filter_cons]
    by_cases h : kv.1 = k
    · subst h
      by_cases hq : q kv.1
      · simp [hq, dictGet_cons]
      · simp [hq, ih]
    · by_cases hq : q kv.1
      · simp [hq, dictGet_cons, h, ih]
      · simp [hq, ih, dictGet_cons, h]

/-- Looking up the fill rows: present exactly at the labels `y` has and `x`
lacks, holding the zero fill of the corresponding row of `y`. -/
theorem rowAt_fillsFor (x y : PRC) (l : String) :
    rowAt (fillsFor x y) l =
      if (rowAt x l).isSome then none else (rowAt y l).map fillRow := by
  induction y with
  | nil => simp [fillsFor, rowAt, dictGet]
  | cons kv t ih =>
    rw [show fillsFor x (kv :: t) = (if (rowAt x kv.1).isNone then
        ((kv.1, fillRow kv.2) :: fillsFor x t) else fillsFor x t) from by
      simp only [fillsFor, List.filter_cons]
      by_cases hq : (rowAt x kv.1).isNone <;> simp [hq]]
    by_cases h : kv.1 = l
    · subst h
      by_cases hq : (rowAt x kv.1).isNone
      · rw [if_pos hq]
        rw [show rowAt ((kv.1, fillRow kv.2) :: fillsFor x t) kv.1
            = some (fillRow kv.2) from by simp [rowAt, dictGet_cons]]
        rw [show rowAt x kv.1 = none from Option.isNone_iff_eq_none.mp hq]
        simp [rowAt, dictGet_cons]
      · rw [if_neg hq, ih]
        have hs : (rowAt x kv.1).isSome = true := by
          cases hx : rowAt x kv.1 <;> simp_all
        simp [hs]
    · by_cases hq : (rowAt x kv.1).isNone
      · rw [if_pos hq]
        rw [show rowAt ((kv.1, fillRow kv.2) :: fillsFor x t) l
            = rowAt (fillsFor x t) l from by simp [rowAt, dictGet_cons, h]]
        rw [ih]
        rw [show rowAt (kv :: t) l = rowAt t l from by simp [rowAt, dictGet_cons, h]]
      · rw [if_neg hq, ih]
        rw [show rowAt (kv :: t) l = rowAt t l from by simp [rowAt, dictGet_cons, h]]

/-- Looking up the aligned-sum table entrywise. -/
theorem rowAt_mapMerge (bf : PRC) (x : PRC) (l : String) :
    rowAt (x.map (fun kv => (kv.1, mergeEntry bf kv.1 kv.2))) l =
      (rowAt x l).map (mergeEntry bf l) := by
  induction x with
  | nil => simp [rowAt, dictGet]
  | cons kv t ih =>
    rw [List.map_cons]
    by_cases h : kv.1 = l
    · subst h
      simp [rowAt, dictGet_cons]
    · rw [show rowAt ((kv.1, mergeEntry bf kv.1 kv.2) ::
          t.map (fun kv => (kv.1, mergeEntry bf kv.1 kv.2))) l
          = rowAt (t.map (fun kv => (kv.1, mergeEntry bf kv.1 kv.2))) l from by
        simp [rowAt, dictGet_cons, h]]
      rw [ih]
      rw [show rowAt (kv :: t) l = rowAt t l from by simp [rowAt, dictGet_cons, h]]

/-- Per-label description of `__add__`: both present means aligned addition,
one present means addition with its own zero fill, absent stays absent. -/
theorem rowAt_prcAdd (a b : PRC) (l : String) :
    rowAt (prcAdd a b) l =
      match rowAt a l, rowAt b l with
      | some r1, some r2 => some (addRowRecompute r1 r2)
      | some r1, none => some (addRowRecompute r1 (fillRow r1))
      | none, some r2 => some (addRowRecompute (fillRow r2) r2)
      | none, none => none := by
  rw [show prcAdd a b = ((a ++ fillsFor a b).map
    (fun kv => (kv.1, mergeEntry (b ++ fillsFor b a) kv.1 kv.2)) : PRC) from rfl]
  rw [rowAt_mapMerge]
  have haf : rowAt (a ++ fillsFor a b) l =
      if (rowAt a l).isSome then rowAt a l else rowAt (fillsFor a b) l :=
    dictGet_append a (fillsFor a b) l
  have hbf : rowAt (b ++ fillsFor b a) l =
      if (rowAt b l).isSome then rowAt b l else rowAt (fillsFor b a) l :=
    dictGet_append b (fillsFor b a) l
  cases ha : rowAt a l <;> cases hb : rowAt b l <;>
    simp [haf, hbf, ha, hb, rowAt_fillsFor, mergeEntry]

/-- Summing `T` with a zero fill changes nothing (NaN stays NaN). -/
theorem tAdd_fill (t : Option ℤ) : tAdd t (some 0) = t := by
  cases t <;> simp [tAdd]

theorem tAdd_fill_left (t : Option ℤ) : tAdd (some 0) t = t := by
  cases t <;> simp [tAdd]

/-- Summing `T` is commutative. -/
theorem tAdd_comm (a b : Option ℤ) : tAdd a b = tAdd b a := by
  cases a <;> cases b <;> simp [tAdd, Int.add_comm]

/-- Summing `T` is associative. -/
theorem tAdd_assoc (a b c : Option ℤ) : tAdd (tAdd a b) c = tAdd a (tAdd b c) := by
  cases a <;> cases b <;> cases c <;> simp [tAdd, Int.add_assoc]

/-- Summing `N` with its own fill changes nothing. -/
theorem nAdd_fill (n : NVal) : nAdd n (fillN n) = n := by
  cases n <;> simp [nAdd, fillN]

/-- Summing `N` with a fill on the left changes nothing. -/
theorem nAdd_fill_left (n : NVal) : nAdd (fillN n) n = n := by
  cases n <;> simp [nAdd, fillN]

/-- Summing `N` is commutative. -/
theorem nAdd_comm (a b : NVal) : nAdd a b = nAdd b a := by
  cases a <;> cases b <;> simp [nAdd, Int.add_comm]

/-- Summing `N` is associative (the poisoned value is absorbing). -/
theorem nAdd_assoc (a b c : NVal) : nAdd (nAdd a b) c = nAdd a (nAdd b c) := by
  cases a <;> cases b <;> cases c <;> simp [nAdd, Int.add_assoc]

/-- The base counts of an aligned sum are the summed base counts. -/
theorem counts_add (a b : Row) :
    rowCounts (addRowRecompute a b) = cAdd (rowCounts a) (rowCounts b) := rfl

/-- The base counts of a zero-filled row. -/
theorem counts_fill (r : Row) : rowCounts (fillRow r) = fillC (rowCounts r) := rfl

/-- Summing with the own zero fill on the right is the identity. -/
theorem cAdd_fillC (x : Counts) : cAdd x (fillC x) = x := by
  obtain ⟨a1, a2, a3, a4, a5⟩ := x
  simp [cAdd, fillC, tAdd_fill, nAdd_fill]

/-- Summing with the own zero fill on the left is the identity. -/
theorem cAdd_fillC_left (x : Counts) : cAdd (fillC x) x = x := by
  obtain ⟨a1, a2, a3, a4, a5⟩ := x
  simp [cAdd, fillC, tAdd_fill_left, nAdd_fill_left]

/-- Base-count summation is commutative. -/
theorem cAdd_comm (x y : Counts) : cAdd x y = cAdd y x := by
  obtain ⟨a1, a2, a3, a4, a5⟩ := x
  obtain ⟨b1, b2, b3, b4, b5⟩ := y
  simp [cAdd, Nat.add_comm, tAdd_comm, nAdd_comm]

/-- Base-count summation is associative. -/
theorem cAdd_assoc (x y z : Counts) : cAdd (cAdd x y) z = cAdd x (cAdd y z) := by
  obtain ⟨a1, a2, a3, a4, a5⟩ := x
  obtain ⟨b1, b2, b3, b4, b5⟩ := y
  obtain ⟨c1, c2, c3, c4, c5⟩ := z
  simp [cAdd, Nat.add_assoc, tAdd_assoc, nAdd_assoc]

/-- A label's row is a member of the table. -/
theorem rowAt_mem (a : PRC) (l : String) (r : Row) (h : rowAt a l = some r) :
    ∃ kv ∈ a, kv.2 = r := by
  unfold rowAt dictGet at h
  cases hfind : a.find? (fun kv => decide (kv.1 = l)) with
  | none => rw [hfind] at h; cases h
  | some kv =>
    rw [hfind] at h
    simp at h
    exact ⟨kv, List.mem_of_find?_eq_some hfind, h⟩

/-- Doubling numerator and denominator leaves the `P`/`R` ratio unchanged. -/
theorem pRatio_double (n d : ℕ) : pRatio (n + n) (d + d) = pRatio n d := by
  by_cases hd : d = 0
  · simp [pRatio, hd]
  · have hdd : ¬ (d + d = 0) := by omega
    simp only [pRatio, hd, hdd, if_false]
    congr 1
    rw [show ((n + n : ℕ) : ℚ) = 2 * (n : ℚ) by push_cast; ring,
      show ((d + d : ℕ) : ℚ) = 2 * (d : ℚ) by push_cast; ring]
    rw [mul_div_mul_left _ _ (two_ne_zero)]

/-- Doubling `T` and `N` leaves the recomputed `Acc` unchanged. -/
theorem accRatio_double (t : Option ℤ) (n : NVal) :
    accRatio (tAdd t t) (nAdd n n) = accRatio t n := by
  cases t with
  | none => cases n <;> rfl
  | some tv =>
    cases n with
    | blank => rfl
    | err => rfl
    | num k =>
      simp only [tAdd, nAdd, accRatio]
      by_cases hk : k = 0
      · simp [hk]
      · have hkk : ¬ (k + k = 0) := by omega
        simp only [hk, hkk, if_false]
        congr 1
        push_cast
        rw [show ((tv : ℚ) + tv) = 2 * (tv : ℚ) by ring,
          show ((k : ℚ) + k) = 2 * (k : ℚ) by ring]
        rw [mul_div_mul_left _ _ (two_ne_zero)]

/-- Merging a well-formed row with itself doubles the base counts and leaves
the ratio columns unchanged. -/
theorem addRow_self (r : Row) (h : RowWf r) : addRowRecompute r r = doubleRow r := by
  obtain ⟨hp, hr, hf, hacc⟩ := h
  simp only [addRowRecompute, doubleRow]
  congr 1
  · omega
  · omega
  · omega
  · rw [pRatio_double, ← hp]
  · rw [pRatio_double, ← hr]
  · rw [pRatio_double, pRatio_double, ← hp, ← hr, ← hf]
  · cases ht : r.t <;> simp [tAdd]
    omega
  · cases hn : r.n <;> simp [nAdd]
    omega
  · rw [accRatio_double, ← hacc]

/-- C2: merge is commutative and associative on the per-label base counts
(`Numer`, `PDenom`, `RDenom`, `T`, `N`; rows present in only one operand are
zero-filled), and merging a counter of well-formed rows with itself doubles
the base counts of every row while leaving `P`, `R`, `F`, `Acc` unchanged,
because the ratio columns are recomputed from the summed counts rather than
summed. -/
theorem c2_merge (a b c : PRC) (l : String) (hwf : ∀ kv ∈ a, RowWf kv.2) :
    countsAt (prcAdd a b) l = countsAt (prcAdd b a) l ∧
    countsAt (prcAdd (prcAdd a b) c) l = countsAt (prcAdd a (prcAdd b c)) l ∧
    rowAt (prcAdd a a) l = (rowAt a l).map doubleRow := by
  refine ⟨?_, ?_, ?_⟩
  · unfold countsAt
    rw [rowAt_prcAdd, rowAt_prcAdd]
    cases ha : rowAt a l <;> cases hb : rowAt b l <;>
      simp only [Option.map_some, Option.map_none, Option.some.injEq] <;>
      simp [counts_add, counts_fill, cAdd_fillC, cAdd_fillC_left, cAdd_comm]
  · unfold countsAt
    rw [rowAt_prcAdd, rowAt_prcAdd, rowAt_prcAdd, rowAt_prcAdd]
    cases ha : rowAt a l <;> cases hb : rowAt b l <;> cases hc : rowAt c l <;>
      simp only [Option.map_some, Option.map_none, Option.some.injEq] <;>
      simp [counts_add, counts_fill, cAdd_fillC, cAdd_fillC_left, cAdd_assoc]
  · rw [rowAt_prcAdd]
    cases ha : rowAt a l
    · rfl
    · rename_i r
      obtain ⟨kv, hmem, hkv⟩ := rowAt_mem a l r ha
      have hr : RowWf r := hkv ▸ hwf kv hmem
      simp [addRow_self r hr]

/-- C2 witness: `c2_merge` applied at concrete counters — commutativity and
associativity of the summed base counts across a label present in only one
operand, and the self-merge doubling with unchanged ratios; the final
conjunct checks the doubled counts concretely. -/
theorem c2_merge_witness :
    countsAt (prcAdd c2ctrA c2ctrB) "Targets by token" =
      countsAt (prcAdd c2ctrB c2ctrA) "Targets by token" ∧
    countsAt (prcAdd (prcAdd c2ctrA c2ctrB) c2ctrB) "Targets by span" =
      countsAt (prcAdd c2ctrA (prcAdd c2ctrB c2ctrB)) "Targets by span" ∧
    rowAt (prcAdd c2ctrA c2ctrA) "Targets by token" =
      (rowAt c2ctrA "Targets by token").map doubleRow ∧
    countsAt (prcAdd c2ctrA c2ctrA) "Targets by token" =
      some (2, 4, 4, some 6, NVal.num 10) := by
  have hwf : ∀ kv ∈ c2ctrA, RowWf kv.2 := by
    intro kv hkv
    simp only [c2ctrA, List.mem_singleton] at hkv
    subst hkv
    exact ⟨rfl, rfl, rfl, rfl⟩
  exact ⟨(c2_merge c2ctrA c2ctrB c2ctrB "Targets by token" hwf).1,
    (c2_merge c2ctrA c2ctrB c2ctrB "Targets by span" hwf).2.1,
    (c2_merge c2ctrA c2ctrA c2ctrA "Targets by token" hwf).2.2,
    by decide⟩

-- Sanity examples for the date list.
example : "mon" ∈ DATE_NAMES := by decide

example : "sep." ∈ DATE_NAMES := by decide

example : "may" ∈ DATE_NAMES := by decide

example : pyLower "Monday" = "monday" := by decide

example : excludedNerPred "date" "Monday" = false := by decide

example : excludedNerPred "date" "2024" = true := by decide

example : excludedNerPred "wea" "rifle" = false := by decide

example : excludedNerPred "per" "Smith" = true := by decide

/-- Failed lookup means the key is absent. -/
theorem dictGet_none_iff {κ ν : Type} [DecidableEq κ] (d : List (κ × ν)) (k : κ) :
    dictGet d k = none ↔ k ∉ d.map (fun kv => kv.1) := by
  induction d with
  | nil => simp [dictGet]
  | cons kv t ih =>
    rw [dictGet_cons, List.map_cons, List.mem_cons]
    by_cases h : kv.1 = k
    · simp [h]
    · simp only [if_neg h, ih, not_or]
      constructor
      · intro hnot
        exact ⟨fun heq => h heq.symm, hnot⟩
      · intro hnot
        exact hnot.2

/-- Insert-or-overwrite keeps the key list duplicate-free. -/
theorem dictInsert_nodupKeys {κ ν : Type} [DecidableEq κ] (d : List (κ × ν))
    (k : κ) (v : ν) (h : (d.map (fun kv => kv.1)).Nodup) :
    ((dictInsert d k v).map (fun kv => kv.1)).Nodup := by
  unfold dictInsert
  by_cases hp : (dictGet d k).isSome
  · rw [if_pos hp]
    have hkeys : (d.map (fun kv => if kv.1 = k then (k, v) else kv)).map
        (fun kv => kv.1) = d.map (fun kv => kv.1) := by
      rw [List.map_map]
      apply List.map_congr_left
      intro kv _
      by_cases hk : kv.1 = k <;> simp [Function.comp, hk]
    rw [hkeys]
    exact h
  · rw [if_neg hp]
    rw [List.map_append]
    have habs : k ∉ d.map (fun kv => kv.1) := by
      rw [← dictGet_none_iff]
      cases hg : dictGet d k
      · rfl
      · exact absurd (by rw [hg]; rfl) hp
    simp only [List.map_cons, List.map_nil]
    exact List.Nodup.append h (List.nodup_singleton k)
      (by simpa [List.disjoint_singleton] using habs)

/-- Dicts built by successive assignments have duplicate-free keys. -/
theorem buildDict_nodupKeys {κ ν : Type} [DecidableEq κ] (l : List (κ × ν)) :
    ((buildDict l).map (fun kv => kv.1)).Nodup := by
  suffices h : ∀ acc : List (κ × ν), (acc.map (fun kv => kv.1)).Nodup →
      ((l.foldl (fun d kv => dictInsert d kv.1 kv.2) acc).map
        (fun kv => kv.1)).Nodup by
    exact h [] (by simp)
  induction l with
  | nil => intro acc hacc; simpa using hacc
  | cons kv t ih =>
    intro acc hacc
    exact ih (dictInsert acc kv.1 kv.2) (dictInsert_nodupKeys acc kv.1 kv.2 hacc)

/-- Under duplicate-free keys, lookup success is the same as membership. -/
theorem dictGet_eq_some_iff {κ ν : Type} [DecidableEq κ] (d : List (κ × ν))
    (k : κ) (v : ν) (h : (d.map (fun kv => kv.1)).Nodup) :
    dictGet d k = some v ↔ (k, v) ∈ d := by
  induction d with
  | nil => simp [dictGet]
  | cons kv t ih =>
    rw [dictGet_cons, List.mem_cons]
    rw [List.map_cons, List.nodup_cons] at h
    by_cases hk : kv.1 = k
    · rw [if_pos hk]
      constructor
      · intro hsome
        left
        have hv : kv.2 = v := Option.some.inj hsome
        rw [← hk, ← hv]
      · rintro (heq | hmem)
        · rw [← heq]
        · exact absurd (List.mem_map_of_mem (fun kv => kv.1) hmem) (hk ▸ h.1)
    · rw [if_neg hk, ih h.2]
      constructor
      · exact fun hm => Or.inr hm
      · rintro (heq | hmem)
        · exact absurd (congrArg Prod.fst heq).symm hk
        · exact hmem

/-- Membership of the computed `DATE_NAMES` list, described as the spec says
it: the weekday and month names and their 3-letter abbreviations with or
without a trailing period. -/
theorem mem_DATE_NAMES (t : String) :
    t ∈ DATE_NAMES ↔ (t ∈ WEEKDAY_NAMES ++ MONTH_NAMES ∨
      ∃ d ∈ WEEKDAY_NAMES ++ MONTH_NAMES, t = pyTake d 3 ∨ t = pyTake d 3 ++ ".") := by
  rw [show DATE_NAMES = DATE_NAMES_BASE ++ DATE_NAMES_BASE.flatMap
    (fun d => [pyTake d 3, pyTake d 3 ++ "."]) from rfl]
  rw [show DATE_NAMES_BASE = WEEKDAY_NAMES ++ MONTH_NAMES from rfl]
  rw [List.mem_append, List.mem_flatMap]
  constructor
  · rintro (hbase | ⟨d, hd, hv⟩)
    · exact Or.inl hbase
    · simp only [List.mem_cons, List.not_mem_nil, or_false] at hv
      exact Or.inr ⟨d, hd, hv⟩
  · rintro (hbase | ⟨d, hd, hv⟩)
    · exact Or.inl hbase
    · refine Or.inr ⟨d, hd, ?_⟩
      simp only [List.mem_cons, List.not_mem_nil, or_false]
      exact hv

/-- The exclusion test's `text.lower() in DATE_NAMES` is exactly the spec's
case-insensitive calendar-name match. -/
theorem contains_DATE_NAMES_iff (text : String) :
    DATE_NAMES.contains (pyLower text) = true ↔ matchesDateName text := by
  rw [List.elem_iff, mem_DATE_NAMES]
  unfold matchesDateName
  constructor
  · rintro (hbase | ⟨d, hd, hv⟩)
    · exact ⟨pyLower text, hbase, Or.inl rfl⟩
    · exact ⟨d, hd, Or.inr hv⟩
  · rintro ⟨d, hd, (heq | hv)⟩
    · subst heq
      exact Or.inl hd
    · exact Or.inr ⟨d, hd, hv⟩

/-- The exclusion test, propositionally: not the weapon type, and not a date
entity whose text matches the calendar list. -/
theorem excludedNerPred_iff (ty tx : String) :
    excludedNerPred ty tx = true ↔
      (¬ ty = "wea" ∧ ¬ (ty = "date" ∧ matchesDateName tx)) := by
  have hc := contains_DATE_NAMES_iff tx
  unfold excludedNerPred
  constructor
  · intro h
    rw [Bool.and_eq_true] at h
    obtain ⟨h1, h2⟩ := h
    rw [Bool.not_eq_eq_eq_not, Bool.not_true, decide_eq_false_iff_not] at h1
    refine ⟨h1, ?_⟩
    rintro ⟨hdate, hmatch⟩
    rw [Bool.not_eq_eq_eq_not, Bool.not_true, Bool.and_eq_false_iff] at h2
    rcases h2 with h2 | h2
    · rw [decide_eq_false_iff_not] at h2
      exact h2 hdate
    · rw [← hc] at hmatch
      rw [h2] at hmatch
      cases hmatch
  · rintro ⟨h1, h2⟩
    rw [Bool.and_eq_true]
    refine ⟨by simpa using h1, ?_⟩
    rw [Bool.not_eq_eq_eq_not, Bool.not_true, Bool.and_eq_false_iff]
    by_cases hdate : ty = "date"
    · right
      rw [← Bool.not_eq_true, hc]
      exact fun hm => h2 ⟨hdate, hm⟩
    · left
      simpa using hdate

/-- C5: a named-entity span is excluded exactly when its lowercased type is
not the weapon type and it is not a date entity whose surface text
case-insensitively matches a weekday or month name or a 3-letter abbreviation
thereof (with or without a trailing period); the overall excluded set is the
union of the multiword-expression spans with these entity spans.  A date
entity with text `monday` is not excluded; one with text `2024` is. -/
theorem c5_exclusion :
    (∀ (g : Sentence) (sp : Span),
      sp ∈ excludedNerSpans g ↔
        ∃ ty tx, dictGet (nerDictOf g) sp = some (ty, tx) ∧
          ¬ ty = "wea" ∧ ¬ (ty = "date" ∧ matchesDateName tx)) ∧
    (∀ g : Sentence, (getNonTargets g).2.1 =
      ((wslDictOf g).map (fun kv => kv.1)).toFinset ∪ excludedNerSpans g) ∧
    ([(0, 1)] : Span) ∉ excludedNerSpans c5sentence ∧
    ([(1, 2)] : Span) ∈ excludedNerSpans c5sentence ∧
    (getNonTargets c5sentence).2.1 = {[(1, 2)]} := by
  refine ⟨?_, fun g => rfl, by decide, by decide, by decide⟩
  intro g sp
  unfold excludedNerSpans
  rw [List.mem_toFinset, List.mem_map]
  constructor
  · rintro ⟨kv, hkv, rfl⟩
    rw [List.mem_filter] at hkv
    refine ⟨kv.2.1, kv.2.2, ?_, ?_⟩
    · rw [dictGet_eq_some_iff _ _ _ (show ((nerDictOf g).map (fun kv => kv.1)).Nodup
        from buildDict_nodupKeys _)]
      simpa using hkv.1
    · exact (excludedNerPred_iff kv.2.1 kv.2.2).mp hkv.2
  · rintro ⟨ty, tx, hget, hwea, hdate⟩
    have hmem : (sp, ty, tx) ∈ nerDictOf g :=
      (dictGet_eq_some_iff _ _ _ (show ((nerDictOf g).map (fun kv => kv.1)).Nodup
        from buildDict_nodupKeys _)).mp hget
    refine ⟨(sp, ty, tx), ?_, rfl⟩
    rw [List.mem_filter]
    exact ⟨hmem, (excludedNerPred_iff ty tx).mpr ⟨hwea, hdate⟩⟩

example : (scoreSentence c6goldA c6goldA).map prcLabels
    = some ["Targets by token", "Targets by span"] := by decide

example : (scoreSentence c6goldB c6predB).map prcLabels
    = some ["Targets by token", "Targets by span",
        "Frames with correct targets (ignore P)",
        "Frames (correct targets only)"] := by decide

example : c9check c6goldB c6predB = some true := by decide

/-- Setting a row appends exactly one label. -/
theorem prcSet_labels {α : Type} [DecidableEq α] (c : PRC) (label : String)
    (N : Option ℤ) (g p : Finset α) (c2 : PRC) (h : prcSet c label N g p = some c2) :
    prcLabels c2 = prcLabels c ++ [label] := by
  unfold prcSet at h
  cases hr : setRowEntry N g p with
  | none => rw [hr] at h; cases h
  | some row =>
    rw [hr] at h
    simp at h
    rw [← h]
    simp [prcLabels]

/-- A successful target stage holds exactly the two target rows. -/
theorem targetRows_labels (gold : Sentence) (pm : PredMaps) (st : GoldState)
    (c2 : PRC) (h : targetRows gold pm st = some c2) :
    prcLabels c2 = ["Targets by token", "Targets by span"] := by
  unfold targetRows at h
  split at h
  · cases h
  · rename_i c1 h1
    split at h
    · cases h
    · rename_i c2x h2
      split at h
      · cases h
      · cases h
        rw [prcSet_labels c1 _ _ _ _ _ h2, prcSet_labels [] _ _ _ _ _ h1]
        rfl

/-- A successful frame stage appends exactly the two frame rows. -/
theorem frameRows_labels (pm : PredMaps) (st : GoldState) (c2 : PRC) (c4 : PRC)
    (h : frameRows pm st c2 = some c4) :
    prcLabels c4 = prcLabels c2 ++
      ["Frames with correct targets (ignore P)", "Frames (correct targets only)"] := by
  unfold frameRows at h
  split at h
  · cases h
  · rename_i c3 h1
    split at h
    · rw [prcSet_labels c3 _ _ _ _ _ h, prcSet_labels c2 _ _ _ _ _ h1]
      simp
    · cases h

/-- C6: if the sentence scorer succeeds and no predicted frame carries a
(truthy) frame name, the returned counter holds exactly the rows
`Targets by token` and `Targets by span`; if frame names were predicted but
no arguments were predicted anywhere, exactly the two frame rows are
additionally recorded and no argument row appears. -/
theorem c6_gating (gold pred : Sentence) (hok : scoreSentence gold pred ≠ none) :
    (predNoFrameNames pred = true →
      (scoreSentence gold pred).map prcLabels =
        some ["Targets by token", "Targets by span"]) ∧
    (predSomeFrameNames pred = true → predNoArgs pred = true →
      (scoreSentence gold pred).map prcLabels =
        some ["Targets by token", "Targets by span",
          "Frames with correct targets (ignore P)",
          "Frames (correct targets only)"]) := by
  cases hpm : getPredictionsBySpan pred.frames with
  | none => exact absurd (by unfold scoreSentence; simp only [hpm]) hok
  | some pm =>
  cases hst : goldWalk gold with
  | none => exact absurd (by unfold scoreSentence; simp only [hpm, hst]) hok
  | some st =>
  cases htr : targetRows gold pm st with
  | none => exact absurd (by unfold scoreSentence; simp only [hpm, hst, htr]) hok
  | some c2 =>
  constructor
  · intro hnone
    have hany : pm.frameNames.any (fun kv => optStrTruthy kv.2) = false := by
      unfold predNoFrameNames at hnone
      rw [hpm] at hnone
      rw [List.any_eq_false]
      intro kv hkv
      have h2 := List.all_eq_true.mp hnone kv hkv
      have h3 : kv.2 = none := by simpa using h2
      rw [h3]
      simp [optStrTruthy]
    have hscore : scoreSentence gold pred = some c2 := by
      unfold scoreSentence
      simp only [hpm, hst, htr, hany, Bool.false_eq_true, if_false]
    rw [hscore]
    show some (prcLabels c2) = _
    rw [targetRows_labels gold pm st c2 htr]
  · intro hsome hnoargs
    have hany : pm.frameNames.any (fun kv => optStrTruthy kv.2) = true := by
      unfold predSomeFrameNames at hsome
      rw [hpm] at hsome
      exact hsome
    cases hfr : frameRows pm st c2 with
    | none =>
      refine absurd ?_ hok
      unfold scoreSentence
      simp only [hpm, hst, htr, hany, if_true, hfr]
    | some c4 =>
      have hargs : pm.arguments.any (fun kv => !kv.2.isEmpty) = false := by
        unfold predNoArgs at hnoargs
        rw [hpm] at hnoargs
        rw [List.any_eq_false]
        intro kv hkv
        have h2 := List.all_eq_true.mp hnoargs kv hkv
        have h3 : kv.2.isEmpty = true := by simpa using h2
        rw [h3]
        simp
      have hscore : scoreSentence gold pred = some c4 := by
        unfold scoreSentence
        simp only [hpm, hst, htr, hany, if_true, hfr, hargs, Bool.false_eq_true,
          if_false]
      rw [hscore]
      show some (prcLabels c4) = _
      rw [frameRows_labels pm st c2 c4 hfr, targetRows_labels gold pm st c2 htr]
      rfl

/-- C6 witness: `c6_gating` at the concrete sentences — a prediction with no
frames at all stops after the two target rows, and a prediction with a named
frame and no arguments stops after the two frame rows. -/
theorem c6_gating_witness :
    (scoreSentence c6goldA c6goldA).map prcLabels =
      some ["Targets by token", "Targets by span"] ∧
    (scoreSentence c6goldB c6predB).map prcLabels =
      some ["Targets by token", "Targets by span",
        "Frames with correct targets (ignore P)",
        "Frames (correct targets only)"] :=
  ⟨(c6_gating c6goldA c6goldA (by decide)).1 (by decide),
   (c6_gating c6goldB c6predB (by decide)).2 (by decide) (by decide)⟩

/-- A property preserved by every successful step holds after a successful
(Option-valued) fold. -/
theorem foldlM_invariant {σ β : Type} (P : σ → Prop) (step : σ → β → Option σ)
    (hstep : ∀ st b st2, P st → step st b = some st2 → P st2) :
    ∀ (l : List β) (st0 : σ), P st0 → ∀ st, l.foldlM step st0 = some st → P st := by
  intro l
  induction l with
  | nil =>
    intro st0 h st hf
    have he : st0 = st := Option.some.inj hf
    rw [← he]
    exact h
  | cons b t ih =>
    intro st0 h st hf
    rw [List.foldlM_cons] at hf
    cases hs : step st0 b with
    | none =>
      rw [hs] at hf
      cases hf
    | some st1 =>
      rw [hs] at hf
      exact ih st1 (hstep st0 b st1 h hs) st hf

/-- Every successful gold-loop step keeps the gold frame map's keys
duplicate-free (the map only changes by insert-or-overwrite). -/
theorem goldWalkStep_nodup (tokens : List String) (w : Finset Span)
    (st : GoldState) (fr : Frame) (st2 : GoldState)
    (h : goldWalkStep tokens w st fr = some st2)
    (hnd : (st.gframes.map (fun kv => kv.1)).Nodup) :
    (st2.gframes.map (fun kv => kv.1)).Nodup := by
  unfold goldWalkStep at h
  split at h
  · cases h
  · rename_i tspan heq1
    split at h
    · cases h
    · rename_i name heq2
      split at h
      · cases h
      · rename_i sets heq3
        split at h
        · cases h
        · rename_i first heq4
          split at h
          · cases h
          · rename_i args heq5
            split at h
            · split at h
              · split at h
                · cases h
                · cases h
                  exact dictInsert_nodupKeys _ _ _ hnd
              · cases h
                exact dictInsert_nodupKeys _ _ _ hnd
            · split at h
              · split at h
                · cases h
                · cases h
                  exact dictInsert_nodupKeys _ _ _ hnd
              · cases h
                exact dictInsert_nodupKeys _ _ _ hnd

/-- Every successful prediction-indexing step keeps the frame-name map's keys
duplicate-free. -/
theorem predStep_nodup (st : PredMaps) (fr : Frame) (st2 : PredMaps)
    (h : predStep st fr = some st2)
    (hnd : (st.frameNames.map (fun kv => kv.1)).Nodup) :
    (st2.frameNames.map (fun kv => kv.1)).Nodup := by
  unfold predStep at h
  split at h
  · cases h
  · rename_i tspan heq1
    split at h
    · cases h
    · rename_i args heq2
      cases h
      exact dictInsert_nodupKeys _ _ _ hnd

/-- Restricting an association list with duplicate-free keys to a subset of
its keys keeps exactly one entry per subset element. -/
theorem filter_key_length {κ ν : Type} [DecidableEq κ] (l : List (κ × ν))
    (s : Finset κ) (hnd : (l.map (fun kv => kv.1)).Nodup)
    (hsub : s ⊆ (l.map (fun kv => kv.1)).toFinset) :
    (l.filter (fun kv => kv.1 ∈ s)).length = s.card := by
  have h1 : List.filter (fun k => k ∈ s) (l.map (fun kv => kv.1))
      = (l.filter (fun kv => kv.1 ∈ s)).map (fun kv => kv.1) := by
    rw [List.filter_map]
    congr 1
  have h2 : (l.filter (fun kv => kv.1 ∈ s)).length
      = (List.filter (fun k => k ∈ s) (l.map (fun kv => kv.1))).length := by
    rw [h1, List.length_map]
  rw [h2]
  have hnodup2 : (List.filter (fun k => k ∈ s) (l.map (fun kv => kv.1))).Nodup :=
    hnd.filter _
  rw [← List.toFinset_card_of_nodup hnodup2, List.toFinset_filter]
  have h3 : ((l.map (fun kv => kv.1)).toFinset.filter
      (fun k => decide (k ∈ s) = true)) = s := by
    ext x
    simp only [Finset.mem_filter, decide_eq_true_eq]
    constructor
    · exact fun hx => hx.2
    · exact fun hx => ⟨hsub hx, hx⟩
  rw [h3]

set_option maxHeartbeats 2000000 in
/-- C9: whenever a gold/predicted pair reaches the frame stage, the gold and
predicted frame maps restricted to the key intersection each have exactly as
many entries as the intersection, so the size assertion before the row
`Frames (correct targets only)` holds; the concrete C6 pair serves as a
checked instance. -/
theorem c9_assert :
    (∀ gold pred : Sentence,
      c9check gold pred = none ∨ c9check gold pred = some true) ∧
    c9check c6goldB c6predB = some true := by
  refine ⟨?_, by decide⟩
  intro gold pred
  unfold c9check
  cases hpm : getPredictionsBySpan pred.frames with
  | none => simp
  | some pm =>
  cases hst : goldWalk gold with
  | none => simp [hpm]
  | some st =>
  have hnd1 : (st.gframes.map (fun kv => kv.1)).Nodup := by
    unfold goldWalk at hst
    exact foldlM_invariant (fun s => (s.gframes.map (fun kv => kv.1)).Nodup)
      (goldWalkStep gold.tokens (((getNonTargets gold).1.map
        (fun kv => kv.1)).toFinset))
      (fun s b s2 hp hs => goldWalkStep_nodup _ _ s b s2 hs hp)
      gold.frames _ List.nodup_nil st hst
  have hnd2 : (pm.frameNames.map (fun kv => kv.1)).Nodup := by
    unfold getPredictionsBySpan at hpm
    exact foldlM_invariant (fun s => (s.frameNames.map (fun kv => kv.1)).Nodup)
      predStep (fun s b s2 hp hs => predStep_nodup s b s2 hs hp)
      pred.frames _ List.nodup_nil pm hpm
  have hlen1 : (st.gframes.filter (fun kv => kv.1 ∈ ctsOf pm st)).length
      = (ctsOf pm st).card :=
    filter_key_length _ _ hnd1 (by unfold ctsOf; exact Finset.inter_subset_left)
  have hlen2 : (pm.frameNames.filter (fun kv => kv.1 ∈ ctsOf pm st)).length
      = (ctsOf pm st).card :=
    filter_key_length _ _ hnd2
      (by unfold ctsOf pfrKeysOf; exact Finset.inter_subset_right)
  right
  simp only [hpm, hst]
  refine congrArg some (decide_eq_true ⟨hlen1, hlen2, ?_⟩)
  unfold frameSizeAssert
  rw [decide_eq_true_eq]
  exact ⟨hlen1.trans hlen2.symm, hlen2⟩

/-- Merged rows are well-formed by construction: `__add__` recomputes every
ratio column from the summed counts. -/
theorem addRowRecompute_wf (a b : Row) : RowWf (addRowRecompute a b) :=
  ⟨rfl, rfl, rfl, rfl⟩

/-- Every row `__setitem__` stores is well-formed: its ratio columns agree
with the merge-time recomputation from its base counts (the `F` conditions
`P + R != 0` and `P + R > 0` coincide because `P` and `R` are nonnegative). -/
theorem setRowEntry_wf {α : Type} [DecidableEq α] (N : Option ℤ) (g p : Finset α)
    (row : Row) (h : setRowEntry N g p = some row) : RowWf row := by
  have hfr : ∀ numer pdenom rdenom : ℕ,
      (match pRatio numer pdenom, pRatio numer rdenom with
        | some pv, some rv =>
          if pv + rv ≠ 0 then some (2 * pv * rv / (pv + rv)) else none
        | _, _ => none)
      = fRatioMerge (pRatio numer pdenom) (pRatio numer rdenom) := by
    intro numer pdenom rdenom
    cases hp : pRatio numer pdenom with
    | none => cases hr : pRatio numer rdenom <;> rfl
    | some pv =>
      cases hr : pRatio numer rdenom with
      | none => rfl
      | some rv =>
        have hpv : 0 ≤ pv := by
          unfold pRatio at hp
          split at hp
          · cases hp
          · have := Option.some.inj hp
            rw [← this]
            positivity
        have hrv : 0 ≤ rv := by
          unfold pRatio at hr
          split at hr
          · cases hr
          · have := Option.some.inj hr
            rw [← this]
            positivity
        unfold fRatioMerge
        by_cases hz : pv + rv = 0
        · simp [hz]
        · have hpos : 0 < pv + rv := lt_of_le_of_ne (by positivity) (Ne.symm hz)
          simp [hz, hpos]
  cases N with
  | some n =>
    simp only [setRowEntry] at h
    split at h
    · cases h
    · split at h
      · cases h
      · have hrow := Option.some.inj h
        subst hrow
        exact ⟨rfl, rfl, hfr _ _ _, rfl⟩
  | none =>
    simp only [setRowEntry] at h
    have hrow := Option.some.inj h
    subst hrow
    exact ⟨rfl, rfl, hfr _ _ _, rfl⟩
